import Mathlib

/-!
Shallow embedding of the CLoud-Manager repository: the resource lifecycle
state machine (src/core/resource_state.py), the resource entities
(src/core/cloud_resource.py), the eviction strategies
(src/core/eviction_strategy.py), the logging decorator
(src/patterns/resource_decorator.py), the factory
(src/patterns/resource_factory.py), the user repository and login services
(src/services/user_repository.py, src/services/login_service.py) and the
resource manager (src/services/resource_manager.py).

Python exceptions are modelled with `Except String`; `print` side effects
(console logs) carry no state and are dropped.  A mutating method that
raises leaves its object unchanged, which the embedding renders by the
caller keeping the pre-call value on `Except.error`.
-/

namespace CloudMgr

/-- The four lifecycle states of `resource_state.py`. -/
inductive LifecycleState where
  | CREATED
  | RUNNING
  | STOPPED
  | DELETED
deriving DecidableEq, Repr

/-- `get_state_name` of each state class in `resource_state.py`. -/
def LifecycleState.get_state_name : LifecycleState → String
  | .CREATED => "CREATED"
  | .RUNNING => "RUNNING"
  | .STOPPED => "STOPPED"
  | .DELETED => "DELETED"

/-- `start` of each state class: the successful branches call
`resource.set_state(...)` with the new state, the failing ones raise
`ValueError` with the given message. -/
def LifecycleState.start : LifecycleState → Except String LifecycleState
  | .CREATED => .ok .RUNNING
  | .RUNNING => .error "Resource is already running"
  | .STOPPED => .ok .RUNNING
  | .DELETED => .error "Cannot start a deleted resource"

/-- `stop` of each state class in `resource_state.py`. -/
def LifecycleState.stop : LifecycleState → Except String LifecycleState
  | .CREATED => .error "Cannot stop a resource that hasn't been started"
  | .RUNNING => .ok .STOPPED
  | .STOPPED => .error "Resource is already stopped"
  | .DELETED => .error "Cannot stop a deleted resource"

/-- `delete` of each state class in `resource_state.py`. -/
def LifecycleState.delete : LifecycleState → Except String LifecycleState
  | .CREATED => .ok .DELETED
  | .RUNNING => .error "Cannot delete a running resource. Stop it first"
  | .STOPPED => .ok .DELETED
  | .DELETED => .error "Resource is already deleted"

/-- The strategy classes of `eviction_strategy.py`. -/
inductive EvictionStrategy where
  | LRUStrategy
  | FIFOStrategy
deriving DecidableEq, Repr

/-- `evict` of each strategy class. -/
def EvictionStrategy.evict : EvictionStrategy → String
  | .LRUStrategy => "Evicting least recently used items"
  | .FIFOStrategy => "Evicting oldest items first"

/-- `self.eviction_policy.__class__.__name__`, used by `CacheDB.get_details`. -/
def EvictionStrategy.className : EvictionStrategy → String
  | .LRUStrategy => "LRUStrategy"
  | .FIFOStrategy => "FIFOStrategy"

/-- The immutable constructor fields of the three concrete resource classes
in `cloud_resource.py` (everything but `current_state`, which mutates). -/
inductive ResourceData where
  | appService (id name runtime region : String) (replica_count : Nat)
  | storageAccount (id name : String) (encryption_enabled : Bool) (max_size_gb : Nat)
  | cacheDB (id name : String) (ttl_seconds capacity_mb : Nat) (eviction_policy : EvictionStrategy)
deriving DecidableEq, Repr

/-- The `id` attribute set by `CloudResource.__init__`. -/
def ResourceData.idOf : ResourceData → String
  | .appService i _ _ _ _ => i
  | .storageAccount i _ _ _ => i
  | .cacheDB i _ _ _ _ => i

/-- A `CloudResource` object graph: a concrete resource (`base`) carrying
its mutable `current_state`, possibly wrapped in `LoggingDecorator`s.
`ResourceDecorator.__init__` copies `wrapped_resource.current_state` into
its own `current_state` attribute at construction time; that copy is kept
in `current_state_copy` (it goes stale when the wrapped resource later
transitions, exactly as in the Python object). -/
inductive CloudResource where
  | base (data : ResourceData) (current_state : LifecycleState)
  | loggingDecorator (wrapped : CloudResource) (current_state_copy : LifecycleState)
deriving DecidableEq, Repr

/-- Reading the `current_state` attribute of the object itself (a base
resource's live state, a decorator's construction-time copy). -/
def CloudResource.current_state : CloudResource → LifecycleState
  | .base _ s => s
  | .loggingDecorator _ c => c

/-- `LoggingDecorator(wrapped_resource)`: `ResourceDecorator.__init__`
copies `wrapped_resource.current_state` into the decorator. -/
def LoggingDecorator.make (w : CloudResource) : CloudResource :=
  .loggingDecorator w w.current_state

/-- `CloudResource.start`: delegates to the current state, which either
replaces the state (`set_state`) or raises.  `LoggingDecorator.start` logs,
forwards to the wrapped resource and re-raises any failure unchanged; the
log lines are console output and are dropped here. -/
def CloudResource.start : CloudResource → Except String CloudResource
  | .base d s => (s.start).map (fun s2 => .base d s2)
  | .loggingDecorator w c => (w.start).map (fun w2 => .loggingDecorator w2 c)

/-- `CloudResource.stop`, with decorator forwarding as in `start`. -/
def CloudResource.stop : CloudResource → Except String CloudResource
  | .base d s => (s.stop).map (fun s2 => .base d s2)
  | .loggingDecorator w c => (w.stop).map (fun w2 => .loggingDecorator w2 c)

/-- `CloudResource.delete`, with decorator forwarding as in `start`. -/
def CloudResource.delete : CloudResource → Except String CloudResource
  | .base d s => (s.delete).map (fun s2 => .base d s2)
  | .loggingDecorator w c => (w.delete).map (fun w2 => .loggingDecorator w2 c)

/-- `CloudResource.get_state` returns the state name; `ResourceDecorator.get_state`
forwards to the wrapped resource. -/
def CloudResource.get_state : CloudResource → String
  | .base _ s => s.get_state_name
  | .loggingDecorator w _ => w.get_state

/-- `get_details` of the three concrete classes (f-strings rendered as
concatenation; Python `str` of an int is `Nat.repr`); the decorator
forwards. -/
def CloudResource.get_details : CloudResource → String
  | .base (.appService i nm rt rg rc) s =>
      "AppService[" ++ i ++ "]: " ++ nm ++ "\n  State: " ++ s.get_state_name ++
      "\n  Runtime: " ++ rt ++ "\n  Region: " ++ rg ++ "\n  Replicas: " ++ Nat.repr rc
  | .base (.storageAccount i nm enc sz) s =>
      "StorageAccount[" ++ i ++ "]: " ++ nm ++ "\n  State: " ++ s.get_state_name ++
      "\n  Encryption: " ++ (if enc then "Enabled" else "Disabled") ++
      "\n  Max Size: " ++ Nat.repr sz ++ "GB"
  | .base (.cacheDB i nm ttl cap ev) s =>
      "CacheDB[" ++ i ++ "]: " ++ nm ++ "\n  State: " ++ s.get_state_name ++
      "\n  TTL: " ++ Nat.repr ttl ++ "s\n  Capacity: " ++ Nat.repr cap ++ "MB" ++
      "\n  Eviction: " ++ ev.className
  | .loggingDecorator w _ => w.get_details

/-- The live lifecycle state at the bottom of a decorator stack (the state
the innermost `base` resource holds; `get_state` reports its name). -/
def CloudResource.stateOf : CloudResource → LifecycleState
  | .base _ s => s
  | .loggingDecorator w _ => w.stateOf

/-- The immutable data at the bottom of a decorator stack. -/
def CloudResource.dataOf : CloudResource → ResourceData
  | .base d _ => d
  | .loggingDecorator w _ => w.dataOf

/-- Replacing the live state at the bottom of a decorator stack (what a
successful delegated `set_state` does to the object graph). -/
def CloudResource.setInner : CloudResource → LifecycleState → CloudResource
  | .base d _, s => .base d s
  | .loggingDecorator w c, s => .loggingDecorator (w.setInner s) c

/-- The three lifecycle operations, as data. -/
inductive LifecycleOp where
  | startOp
  | stopOp
  | deleteOp
deriving DecidableEq, Repr

/-- Dispatch a lifecycle operation on a resource. -/
def CloudResource.applyOp : LifecycleOp → CloudResource → Except String CloudResource
  | .startOp, r => r.start
  | .stopOp, r => r.stop
  | .deleteOp, r => r.delete

/-- Dispatch a lifecycle operation on a bare state. -/
def LifecycleState.applyOp : LifecycleOp → LifecycleState → Except String LifecycleState
  | .startOp, s => s.start
  | .stopOp, s => s.stop
  | .deleteOp, s => s.delete

/-- Calling a (possibly raising) lifecycle method the way Python callers
see it: on an exception the object is unchanged and `False`-like failure is
observed, on success the mutated object remains. -/
def CloudResource.tryOp (op : LifecycleOp) (r : CloudResource) : Bool × CloudResource :=
  match CloudResource.applyOp op r with
  | .ok r2 => (true, r2)
  | .error _ => (false, r)

/-- Running a sequence of lifecycle operations with exception semantics. -/
def CloudResource.runOps (r : CloudResource) (ops : List LifecycleOp) : CloudResource :=
  ops.foldl (fun acc op => (CloudResource.tryOp op acc).2) r

/-- Wrapping a resource in `n` logging decorators. -/
def wrapN : Nat → CloudResource → CloudResource
  | 0, r => r
  | n + 1, r => LoggingDecorator.make (wrapN n r)

/-- The `config` dictionary handed to `ResourceFactory.create_resource`,
restricted to the keys the factory ever reads; an absent key is `none`
(reading it raises `KeyError`, except `eviction_policy`, read with
`config.get('eviction_policy', 'LRU')`). -/
structure Config where
  id : Option String
  name : Option String
  runtime : Option String
  region : Option String
  replica_count : Option Nat
  encryption_enabled : Option Bool
  max_size_gb : Option Nat
  ttl_seconds : Option Nat
  capacity_mb : Option Nat
  eviction_policy : Option String
deriving DecidableEq, Repr

/-- A `Config` with every key absent. -/
def Config.empty : Config := ⟨none, none, none, none, none, none, none, none, none, none⟩

/-- The keys of `ResourceFactory.registry` as `_register_defaults` leaves
them; the manager constructs `ResourceFactory()` and never registers more. -/
def defaultRegistry : List String := ["AppService", "StorageAccount", "CacheDB"]

/-- `ResourceFactory.create_resource`: unknown tag raises; otherwise the
branch for the tag reads its required keys (`KeyError` if absent) and
constructs the resource, whose `__init__` sets `current_state = CreatedState()`.
For `CacheDB`, `eviction_policy = config.get('eviction_policy', 'LRU')` and
the strategy is LRU exactly when that string equals `"LRU"`. -/
def ResourceFactory.create_resource (resource_type : String) (config : Config) :
    Except String CloudResource :=
  if resource_type ∈ defaultRegistry then
    if resource_type = "AppService" then
      match config.id, config.name, config.runtime, config.region, config.replica_count with
      | some i, some nm, some rt, some rg, some rc =>
          .ok (.base (.appService i nm rt rg rc) .CREATED)
      | _, _, _, _, _ => .error "KeyError"
    else if resource_type = "StorageAccount" then
      match config.id, config.name, config.encryption_enabled, config.max_size_gb with
      | some i, some nm, some enc, some sz =>
          .ok (.base (.storageAccount i nm enc sz) .CREATED)
      | _, _, _, _ => .error "KeyError"
    else if resource_type = "CacheDB" then
      match config.id, config.name, config.ttl_seconds, config.capacity_mb with
      | some i, some nm, some ttl, some cap =>
          let eviction_policy := config.eviction_policy.getD "LRU"
          let strategy := if eviction_policy = "LRU" then
            EvictionStrategy.LRUStrategy else EvictionStrategy.FIFOStrategy
          .ok (.base (.cacheDB i nm ttl cap strategy) .CREATED)
      | _, _, _, _ => .error "KeyError"
    else .error ("Cannot instantiate resource type: " ++ resource_type)
  else .error ("Unknown resource type: " ++ resource_type)

/-- The eviction strategy of a just-created cache resource, when the
creation succeeded and indeed produced a `CacheDB`. -/
def createdEviction : Except String CloudResource → Option EvictionStrategy
  | .ok (.base (.cacheDB _ _ _ _ ev) _) => some ev
  | _ => none

/-- The `User` entity of `user_repository.py`. -/
structure User where
  username : String
  password : String
  role : String
deriving DecidableEq, Repr

/-- `UserRepository.add_user`: duplicate username is a boolean failure with
the stored list untouched; otherwise the record is appended.  The JSON
file backing the repository is modelled by the in-order list of its user
records. -/
def UserRepository.add_user (users : List User) (u : User) : Bool × List User :=
  if users.any (fun v => v.username == u.username) then (false, users)
  else (true, users ++ [u])

/-- `UserRepository.find_by_username`: first record with that username. -/
def UserRepository.find_by_username (users : List User) (username : String) : Option User :=
  users.find? (fun v => v.username == username)

/-- The two `LoginService` variants of `login_service.py`. -/
inductive LoginService where
  | fileLogin
  | serviceLogin (service_url api_key : String)
deriving DecidableEq, Repr

/-- `authenticate`: `FileLogin` compares the stored password of the found
user (absent user fails); `ServiceLogin` succeeds iff both strings are
non-empty (Python truthiness of `if username and password`).  `FileLogin`
is constructed over the same repository the manager uses, so it reads the
same `users` list. -/
def LoginService.authenticate (svc : LoginService) (users : List User)
    (username password : String) : Bool :=
  match svc with
  | .fileLogin =>
      match UserRepository.find_by_username users username with
      | none => false
      | some u => u.password == password
  | .serviceLogin _ _ => !(username == "") && !(password == "")

/-- Lookup in a Python dict with string keys. -/
def dictGet (d : List (String × CloudResource)) (k : String) : Option CloudResource :=
  (d.find? (fun p => p.1 == k)).map (fun p => p.2)

/-- `d[k] = v` on a Python dict: updates in place if the key exists,
appends otherwise. -/
def dictSet : List (String × CloudResource) → String → CloudResource →
    List (String × CloudResource)
  | [], k, v => [(k, v)]
  | (k2, v2) :: rest, k, v =>
      if k2 == k then (k, v) :: rest else (k2, v2) :: dictSet rest k v

/-- The mutable fields of a `ResourceManager` instance, together with its
injected collaborators (`user_repository` as the list of stored records,
`login_service`).  `factory` is always a default-registered
`ResourceFactory` and carries no varying state. -/
structure ManagerState where
  users : List User
  login_service : LoginService
  resources : List (String × CloudResource)
  next_id : Nat
  current_user : Option User
deriving DecidableEq, Repr

/-- `ResourceManager.__init__` with the given collaborators. -/
def ManagerState.init (users : List User) (svc : LoginService) : ManagerState :=
  ⟨users, svc, [], 1, none⟩

/-- `ResourceManager.is_authenticated`. -/
def ManagerState.is_authenticated (m : ManagerState) : Bool :=
  m.current_user.isSome

/-- `ResourceManager.login`: on provider success the `current_user`
attribute is assigned the repository lookup FIRST and only then checked
for `None` (so a phantom authentication clears the session), returning
`False`; provider failure returns `False` without any assignment. -/
def ManagerState.login (m : ManagerState) (username password : String) :
    Bool × ManagerState :=
  if m.login_service.authenticate m.users username password then
    match UserRepository.find_by_username m.users username with
    | none => (false, { m with current_user := none })
    | some u => (true, { m with current_user := some u })
  else (false, m)

/-- `ResourceManager.logout`: clears the session (no-op print when absent). -/
def ManagerState.logout (m : ManagerState) : ManagerState :=
  { m with current_user := none }

/-- `ResourceManager.register_user`: not authorization-gated. -/
def ManagerState.register_user (m : ManagerState) (username password role : String) :
    Bool × ManagerState :=
  let p := UserRepository.add_user m.users ⟨username, password, role⟩
  (p.1, { m with users := p.2 })

/-- `ResourceManager.create_resource`: unauthenticated returns `None`;
otherwise `config['id'] = str(next_id)`, the factory builds (an exception
propagates with the manager unchanged), optional logging wrap, store under
`str(next_id)`, increment `next_id`, return the id. -/
def ManagerState.create_resource (m : ManagerState) (resource_type : String)
    (config : Config) (enable_logging : Bool) :
    Except String (Option String) × ManagerState :=
  if m.is_authenticated = false then (.ok none, m)
  else
    let config2 := { config with id := some (Nat.repr m.next_id) }
    match ResourceFactory.create_resource resource_type config2 with
    | .error e => (.error e, m)
    | .ok resource =>
        let resource2 := if enable_logging then LoggingDecorator.make resource else resource
        let resource_id := Nat.repr m.next_id
        (.ok (some resource_id),
          { m with resources := dictSet m.resources resource_id resource2,
                   next_id := m.next_id + 1 })

/-- `ResourceManager.get_resource` (not gated). -/
def ManagerState.get_resource (m : ManagerState) (resource_id : String) :
    Option CloudResource :=
  dictGet m.resources resource_id

/-- `ResourceManager.list_resources`: `{}` when unauthenticated, the
resource dict otherwise. -/
def ManagerState.list_resources (m : ManagerState) : List (String × CloudResource) :=
  if m.is_authenticated = false then [] else m.resources

/-- `ResourceManager.start_resource`: gate, lookup, delegate; a raising
`resource.start()` propagates with the manager's fields unchanged (the
resource object itself was left unchanged by the failed transition). -/
def ManagerState.start_resource (m : ManagerState) (resource_id : String) :
    Except String Bool × ManagerState :=
  if m.is_authenticated = false then (.ok false, m)
  else
    match m.get_resource resource_id with
    | none => (.ok false, m)
    | some r =>
        match r.start with
        | .error e => (.error e, m)
        | .ok r2 => (.ok true, { m with resources := dictSet m.resources resource_id r2 })

/-- `ResourceManager.stop_resource`, as `start_resource`. -/
def ManagerState.stop_resource (m : ManagerState) (resource_id : String) :
    Except String Bool × ManagerState :=
  if m.is_authenticated = false then (.ok false, m)
  else
    match m.get_resource resource_id with
    | none => (.ok false, m)
    | some r =>
        match r.stop with
        | .error e => (.error e, m)
        | .ok r2 => (.ok true, { m with resources := dictSet m.resources resource_id r2 })

/-- `ResourceManager.delete_resource`, as `start_resource`; the resource is
NOT removed from the dict, only transitioned. -/
def ManagerState.delete_resource (m : ManagerState) (resource_id : String) :
    Except String Bool × ManagerState :=
  if m.is_authenticated = false then (.ok false, m)
  else
    match m.get_resource resource_id with
    | none => (.ok false, m)
    | some r =>
        match r.delete with
        | .error e => (.error e, m)
        | .ok r2 => (.ok true, { m with resources := dictSet m.resources resource_id r2 })

/-- `ResourceManager.get_resource_details`: gate, lookup, pure query. -/
def ManagerState.get_resource_details (m : ManagerState) (resource_id : String) :
    Option String :=
  if m.is_authenticated = false then none
  else
    match m.get_resource resource_id with
    | none => none
    | some r => some r.get_details

/-- The manager's public operations, as data, for reachability arguments. -/
inductive MOp where
  | loginOp (username password : String)
  | logoutOp
  | registerUserOp (username password role : String)
  | createResourceOp (resource_type : String) (config : Config) (enable_logging : Bool)
  | listResourcesOp
  | startResourceOp (resource_id : String)
  | stopResourceOp (resource_id : String)
  | deleteResourceOp (resource_id : String)
  | getResourceDetailsOp (resource_id : String)

/-- The state effect of one public manager operation. -/
def ManagerState.step (m : ManagerState) : MOp → ManagerState
  | .loginOp u p => (m.login u p).2
  | .logoutOp => m.logout
  | .registerUserOp u p rl => (m.register_user u p rl).2
  | .createResourceOp t c l => (m.create_resource t c l).2
  | .listResourcesOp => m
  | .startResourceOp i => (m.start_resource i).2
  | .stopResourceOp i => (m.stop_resource i).2
  | .deleteResourceOp i => (m.delete_resource i).2
  | .getResourceDetailsOp _ => m

/-- Running a sequence of public manager operations. -/
def ManagerState.run (m : ManagerState) (ops : List MOp) : ManagerState :=
  ops.foldl ManagerState.step m

/-- Decimal digit list of a natural number, most significant first; a
fuel-free counterpart of `Nat.toDigits 10` used to reason about the ids
the manager produces with `str(next_id)`. -/
def decDigits (n : Nat) : List Char :=
  if n < 10 then [Nat.digitChar n]
  else decDigits (n / 10) ++ [Nat.digitChar (n % 10)]
termination_by n
decreasing_by
  exact Nat.div_lt_self (by omega) (by omega)

/-- A sample user record. -/
def alice : User := ⟨"alice", "pw1", "admin"⟩

/-- Sample immutable resource data. -/
def sampleData : ResourceData := .appService "1" "Web" "Python" "us-east-1" 3

/-- Sample resources in each lifecycle state. -/
def rCreated : CloudResource := .base sampleData .CREATED

/-- Sample resource in RUNNING state. -/
def rRunning : CloudResource := .base sampleData .RUNNING

/-- Sample resource in STOPPED state. -/
def rStopped : CloudResource := .base sampleData .STOPPED

/-- Sample resource in DELETED state. -/
def rDeleted : CloudResource := .base sampleData .DELETED

/-- A manager whose session is authenticated as `alice`, wired to the
remote-stub login service; used to exhibit the phantom-authentication
session clobber. -/
def mgrPhantom : ManagerState :=
  ⟨[alice], .serviceLogin "https://auth.example" "key", [], 1, some alice⟩

/-- An authenticated manager holding one CREATED resource under id "1". -/
def mgrWithRes : ManagerState := ⟨[alice], .fileLogin, [("1", rCreated)], 2, some alice⟩

/-- A CacheDB config whose `eviction_policy` key is absent. -/
def cacheCfgNoEv : Config :=
  ⟨some "1", some "cache", none, none, none, none, none, some 60, some 256, none⟩

/-- An AppService config as a caller would pass it (no id yet). -/
def appCfg : Config :=
  ⟨none, some "Web", some "Python", some "us-east-1", some 3, none, none, none, none, none⟩

/-- Every key of the resource dict is the decimal rendering of a number
below the id counter — the invariant behind id uniqueness. -/
def IdsBounded (m : ManagerState) : Prop :=
  ∀ p ∈ m.resources, ∃ k, k < m.next_id ∧ p.1 = Nat.repr k

/-- A manager reached by logging in as alice. -/
def mgrLogged : ManagerState :=
  (ManagerState.init [alice] LoginService.fileLogin).run [MOp.loginOp "alice" "pw1"]

/-- A manager reached by logging in as alice and creating one AppService. -/
def mgrLogged2 : ManagerState :=
  (ManagerState.init [alice] LoginService.fileLogin).run
    [MOp.loginOp "alice" "pw1", MOp.createResourceOp "AppService" appCfg false]

/- ------------------------------------------------------------------ -/
/- Theorems.                                                           -/
/- ------------------------------------------------------------------ -/

theorem get_state_eq_stateOf (r : CloudResource) :
    r.get_state = r.stateOf.get_state_name := by
  induction r with
  | base d s => rfl
  | loggingDecorator w c ih => simpa [CloudResource.get_state, CloudResource.stateOf] using ih

theorem applyOp_eq_setInner (op : LifecycleOp) (r : CloudResource) :
    CloudResource.applyOp op r = (LifecycleState.applyOp op r.stateOf).map r.setInner := by
  induction r with
  | base d s =>
      cases op <;> rfl
  | loggingDecorator w c ih =>
      cases op <;>
        simp only [CloudResource.applyOp, LifecycleState.applyOp, CloudResource.start,
          CloudResource.stop, CloudResource.delete, CloudResource.stateOf,
          CloudResource.setInner] at ih ⊢ <;>
        rw [ih] <;>
        rcases LifecycleState.start w.stateOf with h | h <;>
        rcases LifecycleState.stop w.stateOf with h2 | h2 <;>
        rcases LifecycleState.delete w.stateOf with h3 | h3 <;>
        rfl

theorem stateOf_setInner (r : CloudResource) (s : LifecycleState) :
    (r.setInner s).stateOf = s := by
  induction r with
  | base d s0 => rfl
  | loggingDecorator w c ih => simpa [CloudResource.setInner, CloudResource.stateOf] using ih

theorem dataOf_setInner (r : CloudResource) (s : LifecycleState) :
    (r.setInner s).dataOf = r.dataOf := by
  induction r with
  | base d s0 => rfl
  | loggingDecorator w c ih => simpa [CloudResource.setInner, CloudResource.dataOf] using ih

theorem get_state_setInner (r : CloudResource) (s : LifecycleState) :
    (r.setInner s).get_state = s.get_state_name := by
  rw [get_state_eq_stateOf, stateOf_setInner]

theorem get_state_name_injective (s t : LifecycleState)
    (h : s.get_state_name = t.get_state_name) : s = t := by
  cases s <;> cases t <;> first | rfl | (exfalso; revert h; decide)

theorem digitChar_inj (a b : Nat) (ha : a < 10) (hb : b < 10)
    (h : Nat.digitChar a = Nat.digitChar b) : a = b := by
  have key : ∀ x y : Fin 10, Nat.digitChar x.val = Nat.digitChar y.val → x = y := by decide
  simpa using congrArg Fin.val (key ⟨a, ha⟩ ⟨b, hb⟩ h)

theorem toDigitsCore_acc (b : Nat) : ∀ (f n : Nat) (acc : List Char),
    Nat.toDigitsCore b f n acc = Nat.toDigitsCore b f n [] ++ acc := by
  intro f
  induction f with
  | zero => intro n acc; rfl
  | succ f ih =>
      intro n acc
      simp only [Nat.toDigitsCore]
      by_cases h : n / b = 0
      · simp [h]
      · rw [if_neg h, if_neg h, ih (n / b) (Nat.digitChar (n % b) :: acc),
            ih (n / b) [Nat.digitChar (n % b)]]
        simp

theorem decDigits_def (n : Nat) : decDigits n =
    if n < 10 then [Nat.digitChar n] else decDigits (n / 10) ++ [Nat.digitChar (n % 10)] := by
  rw [decDigits]

theorem toDigitsCore_eq_decDigits : ∀ n f acc, n ≤ f →
    Nat.toDigitsCore 10 (f + 1) n acc = decDigits n ++ acc := by
  intro n
  induction n using Nat.strong_induction_on with
  | _ n ih =>
    intro f acc hnf
    simp only [Nat.toDigitsCore]
    by_cases h : n / 10 = 0
    · have hn : n < 10 := by omega
      rw [if_pos h, decDigits_def n, if_pos hn, Nat.mod_eq_of_lt hn]
      simp
    · have hn : ¬ n < 10 := by omega
      obtain ⟨f2, rfl⟩ : ∃ f2, f = f2 + 1 := ⟨f - 1, by omega⟩
      rw [if_neg h, ih (n / 10) (by omega) f2 _ (by omega), decDigits_def n, if_neg hn]
      simp

theorem natRepr_eq_decDigits (n : Nat) : Nat.repr n = (decDigits n).asString := by
  show (Nat.toDigits 10 n).asString = _
  rw [Nat.toDigits, toDigitsCore_eq_decDigits n n [] (Nat.le_refl n), List.append_nil]

theorem decDigits_length_pos (n : Nat) : 0 < (decDigits n).length := by
  rw [decDigits_def n]
  by_cases h : n < 10 <;> simp [h]

theorem decDigits_injective : ∀ m n : Nat, decDigits m = decDigits n → m = n := by
  intro m
  induction m using Nat.strong_induction_on with
  | _ m ih =>
    intro n h
    by_cases hm : m < 10 <;> by_cases hn : n < 10
    · rw [decDigits_def m, if_pos hm, decDigits_def n, if_pos hn] at h
      simp only [List.cons.injEq, and_true] at h
      exact digitChar_inj m n hm hn h
    · rw [decDigits_def m, if_pos hm, decDigits_def n, if_neg hn] at h
      have hl := congrArg List.length h
      have := decDigits_length_pos (n / 10)
      simp only [List.length_append, List.length_cons, List.length_nil] at hl
      omega
    · rw [decDigits_def m, if_neg hm, decDigits_def n, if_pos hn] at h
      have hl := congrArg List.length h
      have := decDigits_length_pos (m / 10)
      simp only [List.length_append, List.length_cons, List.length_nil] at hl
      omega
    · rw [decDigits_def m, if_neg hm, decDigits_def n, if_neg hn] at h
      have h2 := congrArg List.reverse h
      simp only [List.reverse_append, List.reverse_cons, List.reverse_nil, List.nil_append,
        List.singleton_append, List.cons.injEq] at h2
      obtain ⟨hhead, htail⟩ := h2
      have hmod : m % 10 = n % 10 :=
        digitChar_inj _ _ (Nat.mod_lt _ (by omega)) (Nat.mod_lt _ (by omega)) hhead
      have hdiv : m / 10 = n / 10 :=
        ih (m / 10) (Nat.div_lt_self (by omega) (by omega)) (n / 10)
          (List.reverse_injective htail)
      omega

theorem natRepr_injective (m n : Nat) (h : Nat.repr m = Nat.repr n) : m = n := by
  rw [natRepr_eq_decDigits, natRepr_eq_decDigits, List.asString_inj] at h
  exact decDigits_injective m n h

theorem dictGet_dictSet_self (d : List (String × CloudResource)) (k : String)
    (v : CloudResource) : dictGet (dictSet d k v) k = some v := by
  induction d with
  | nil => simp [dictSet, dictGet, List.find?]
  | cons p rest ih =>
      obtain ⟨k2, v2⟩ := p
      by_cases h : (k2 == k) = true
      · simp [dictSet, h, dictGet, List.find?]
      · simp only [dictSet, h, if_false, Bool.false_eq_true]
        simpa [dictGet, List.find?, h] using ih

theorem dictGet_dictSet_of_ne (d : List (String × CloudResource)) (k k2 : String)
    (v : CloudResource) (h : k ≠ k2) : dictGet (dictSet d k2 v) k = dictGet d k := by
  have hkk : (k2 == k) = false := beq_eq_false_iff_ne.mpr (Ne.symm h)
  induction d with
  | nil => simp [dictSet, dictGet, List.find?, hkk]
  | cons p rest ih =>
      obtain ⟨k3, v3⟩ := p
      by_cases h3 : (k3 == k2) = true
      · have hk3 : k3 = k2 := by simpa [beq_iff_eq] using h3
        subst hk3
        simp [dictSet, dictGet, List.find?, hkk]
      · simp only [dictSet]
        rw [if_neg h3]
        by_cases h4 : (k3 == k) = true
        · simp [dictGet, List.find?, h4]
        · simpa [dictGet, List.find?, h4] using ih

theorem dictGet_mem (d : List (String × CloudResource)) (k : String) (v : CloudResource)
    (h : dictGet d k = some v) : (k, v) ∈ d := by
  simp only [dictGet, Option.map_eq_some'] at h
  obtain ⟨⟨p1, p2⟩, hp, hv⟩ := h
  have hkey := List.find?_some hp
  have hk : p1 = k := by simpa [beq_iff_eq] using hkey
  have hmem := List.mem_of_find?_eq_some hp
  simp only at hv
  rw [hk, hv] at hmem
  exact hmem

theorem mem_dictSet (d : List (String × CloudResource)) (k : String) (v : CloudResource)
    (p : String × CloudResource) (h : p ∈ dictSet d k v) : p = (k, v) ∨ p ∈ d := by
  induction d with
  | nil => simpa [dictSet] using h
  | cons q rest ih =>
      obtain ⟨k2, v2⟩ := q
      by_cases h2 : (k2 == k) = true
      · simp only [dictSet, h2, if_true] at h
        rcases List.mem_cons.mp h with h3 | h3
        · exact Or.inl h3
        · exact Or.inr (List.mem_cons_of_mem _ h3)
      · simp only [dictSet, h2, if_false, Bool.false_eq_true] at h
        rcases List.mem_cons.mp h with h3 | h3
        · exact Or.inr (h3 ▸ List.mem_cons_self _ _)
        · rcases ih h3 with h4 | h4
          · exact Or.inl h4
          · exact Or.inr (List.mem_cons_of_mem _ h4)

theorem stateOf_eq_of_get_state (r : CloudResource) (s : LifecycleState)
    (h : r.get_state = s.get_state_name) : r.stateOf = s :=
  get_state_name_injective _ _ ((get_state_eq_stateOf r).symm.trans h)

theorem tryOp_of_stateOf_ok (op : LifecycleOp) (r : CloudResource) (s2 : LifecycleState)
    (h : LifecycleState.applyOp op r.stateOf = .ok s2) :
    CloudResource.tryOp op r = (true, r.setInner s2) := by
  rw [CloudResource.tryOp, applyOp_eq_setInner, h]
  rfl

theorem tryOp_of_stateOf_err (op : LifecycleOp) (r : CloudResource) (e : String)
    (h : LifecycleState.applyOp op r.stateOf = .error e) :
    CloudResource.tryOp op r = (false, r) := by
  rw [CloudResource.tryOp, applyOp_eq_setInner, h]
  rfl

theorem runOps_deleted (ops : List LifecycleOp) : ∀ r : CloudResource,
    r.stateOf = .DELETED → (CloudResource.runOps r ops).stateOf = .DELETED := by
  induction ops with
  | nil => intro r h; exact h
  | cons op rest ih =>
      intro r h
      have herr : CloudResource.tryOp op r = (false, r) := by
        cases op <;> exact tryOp_of_stateOf_err _ r _ (by rw [h]; rfl)
      show (CloudResource.runOps (CloudResource.tryOp op r).2 rest).stateOf = .DELETED
      rw [herr]
      exact ih r h

/-- C1: each lifecycle operation follows the transition table — start
succeeds exactly from CREATED and STOPPED yielding RUNNING, stop succeeds
exactly from RUNNING yielding STOPPED, delete succeeds exactly from
CREATED and STOPPED yielding DELETED; every failing operation leaves the
resource exactly as it was. -/
theorem c1_lifecycle_transition_table (r : CloudResource) :
    (r.get_state = "CREATED" → (CloudResource.tryOp .startOp r).1 = true ∧
      (CloudResource.tryOp .startOp r).2.get_state = "RUNNING") ∧
    (r.get_state = "STOPPED" → (CloudResource.tryOp .startOp r).1 = true ∧
      (CloudResource.tryOp .startOp r).2.get_state = "RUNNING") ∧
    (r.get_state = "RUNNING" → CloudResource.tryOp .startOp r = (false, r)) ∧
    (r.get_state = "DELETED" → CloudResource.tryOp .startOp r = (false, r)) ∧
    (r.get_state = "RUNNING" → (CloudResource.tryOp .stopOp r).1 = true ∧
      (CloudResource.tryOp .stopOp r).2.get_state = "STOPPED") ∧
    (r.get_state = "CREATED" → CloudResource.tryOp .stopOp r = (false, r)) ∧
    (r.get_state = "STOPPED" → CloudResource.tryOp .stopOp r = (false, r)) ∧
    (r.get_state = "DELETED" → CloudResource.tryOp .stopOp r = (false, r)) ∧
    (r.get_state = "CREATED" → (CloudResource.tryOp .deleteOp r).1 = true ∧
      (CloudResource.tryOp .deleteOp r).2.get_state = "DELETED") ∧
    (r.get_state = "STOPPED" → (CloudResource.tryOp .deleteOp r).1 = true ∧
      (CloudResource.tryOp .deleteOp r).2.get_state = "DELETED") ∧
    (r.get_state = "RUNNING" → CloudResource.tryOp .deleteOp r = (false, r)) ∧
    (r.get_state = "DELETED" → CloudResource.tryOp .deleteOp r = (false, r)) := by
  refine ⟨?_, ?_, ?_, ?_, ?_, ?_, ?_, ?_, ?_, ?_, ?_, ?_⟩ <;> intro h
  · rw [tryOp_of_stateOf_ok .startOp r .RUNNING
      (by rw [stateOf_eq_of_get_state r .CREATED h]; rfl)]
    exact ⟨rfl, by rw [get_state_setInner]; rfl⟩
  · rw [tryOp_of_stateOf_ok .startOp r .RUNNING
      (by rw [stateOf_eq_of_get_state r .STOPPED h]; rfl)]
    exact ⟨rfl, by rw [get_state_setInner]; rfl⟩
  · exact tryOp_of_stateOf_err .startOp r _
      (by rw [stateOf_eq_of_get_state r .RUNNING h]; rfl)
  · exact tryOp_of_stateOf_err .startOp r _
      (by rw [stateOf_eq_of_get_state r .DELETED h]; rfl)
  · rw [tryOp_of_stateOf_ok .stopOp r .STOPPED
      (by rw [stateOf_eq_of_get_state r .RUNNING h]; rfl)]
    exact ⟨rfl, by rw [get_state_setInner]; rfl⟩
  · exact tryOp_of_stateOf_err .stopOp r _
      (by rw [stateOf_eq_of_get_state r .CREATED h]; rfl)
  · exact tryOp_of_stateOf_err .stopOp r _
      (by rw [stateOf_eq_of_get_state r .STOPPED h]; rfl)
  · exact tryOp_of_stateOf_err .stopOp r _
      (by rw [stateOf_eq_of_get_state r .DELETED h]; rfl)
  · rw [tryOp_of_stateOf_ok .deleteOp r .DELETED
      (by rw [stateOf_eq_of_get_state r .CREATED h]; rfl)]
    exact ⟨rfl, by rw [get_state_setInner]; rfl⟩
  · rw [tryOp_of_stateOf_ok .deleteOp r .DELETED
      (by rw [stateOf_eq_of_get_state r .STOPPED h]; rfl)]
    exact ⟨rfl, by rw [get_state_setInner]; rfl⟩
  · exact tryOp_of_stateOf_err .deleteOp r _
      (by rw [stateOf_eq_of_get_state r .RUNNING h]; rfl)
  · exact tryOp_of_stateOf_err .deleteOp r _
      (by rw [stateOf_eq_of_get_state r .DELETED h]; rfl)

/-- Witness for C1 on concrete resources in all four states. -/
theorem c1_lifecycle_transition_table_witness :
    ((CloudResource.tryOp .startOp rCreated).1 = true ∧
      (CloudResource.tryOp .startOp rCreated).2.get_state = "RUNNING") ∧
    ((CloudResource.tryOp .startOp rStopped).1 = true ∧
      (CloudResource.tryOp .startOp rStopped).2.get_state = "RUNNING") ∧
    CloudResource.tryOp .startOp rRunning = (false, rRunning) ∧
    CloudResource.tryOp .startOp rDeleted = (false, rDeleted) ∧
    ((CloudResource.tryOp .stopOp rRunning).1 = true ∧
      (CloudResource.tryOp .stopOp rRunning).2.get_state = "STOPPED") ∧
    CloudResource.tryOp .stopOp rCreated = (false, rCreated) ∧
    CloudResource.tryOp .stopOp rStopped = (false, rStopped) ∧
    CloudResource.tryOp .stopOp rDeleted = (false, rDeleted) ∧
    ((CloudResource.tryOp .deleteOp rCreated).1 = true ∧
      (CloudResource.tryOp .deleteOp rCreated).2.get_state = "DELETED") ∧
    ((CloudResource.tryOp .deleteOp rStopped).1 = true ∧
      (CloudResource.tryOp .deleteOp rStopped).2.get_state = "DELETED") ∧
    CloudResource.tryOp .deleteOp rRunning = (false, rRunning) ∧
    CloudResource.tryOp .deleteOp rDeleted = (false, rDeleted) :=
  ⟨(c1_lifecycle_transition_table rCreated).1 rfl,
   (c1_lifecycle_transition_table rStopped).2.1 rfl,
   (c1_lifecycle_transition_table rRunning).2.2.1 rfl,
   (c1_lifecycle_transition_table rDeleted).2.2.2.1 rfl,
   (c1_lifecycle_transition_table rRunning).2.2.2.2.1 rfl,
   (c1_lifecycle_transition_table rCreated).2.2.2.2.2.1 rfl,
   (c1_lifecycle_transition_table rStopped).2.2.2.2.2.2.1 rfl,
   (c1_lifecycle_transition_table rDeleted).2.2.2.2.2.2.2.1 rfl,
   (c1_lifecycle_transition_table rCreated).2.2.2.2.2.2.2.2.1 rfl,
   (c1_lifecycle_transition_table rStopped).2.2.2.2.2.2.2.2.2.1 rfl,
   (c1_lifecycle_transition_table rRunning).2.2.2.2.2.2.2.2.2.2.1 rfl,
   (c1_lifecycle_transition_table rDeleted).2.2.2.2.2.2.2.2.2.2.2 rfl⟩

/-- C7: from a DELETED resource, start, stop and delete all fail with the
invalid-transition error of `DeletedState`, and no sequence of further
operations ever moves the state away from DELETED. -/
theorem c7_deleted_is_terminal (r : CloudResource) (h : r.get_state = "DELETED") :
    r.start = .error "Cannot start a deleted resource" ∧
    r.stop = .error "Cannot stop a deleted resource" ∧
    r.delete = .error "Resource is already deleted" ∧
    ∀ ops : List LifecycleOp, (CloudResource.runOps r ops).get_state = "DELETED" := by
  have hs : r.stateOf = .DELETED := stateOf_eq_of_get_state r .DELETED h
  refine ⟨?_, ?_, ?_, ?_⟩
  · rw [show r.start = CloudResource.applyOp .startOp r from rfl, applyOp_eq_setInner, hs]
    rfl
  · rw [show r.stop = CloudResource.applyOp .stopOp r from rfl, applyOp_eq_setInner, hs]
    rfl
  · rw [show r.delete = CloudResource.applyOp .deleteOp r from rfl, applyOp_eq_setInner, hs]
    rfl
  · intro ops
    rw [get_state_eq_stateOf, runOps_deleted ops r hs]
    rfl

/-- Witness for C7 on a concrete DELETED resource. -/
theorem c7_deleted_is_terminal_witness :
    rDeleted.start = .error "Cannot start a deleted resource" ∧
    (CloudResource.runOps rDeleted [.startOp, .deleteOp, .stopOp]).get_state = "DELETED" :=
  ⟨(c7_deleted_is_terminal rDeleted rfl).1,
   (c7_deleted_is_terminal rDeleted rfl).2.2.2 [.startOp, .deleteOp, .stopOp]⟩

theorem applyOp_make (op : LifecycleOp) (r : CloudResource) :
    CloudResource.applyOp op (LoggingDecorator.make r)
      = (CloudResource.applyOp op r).map
          (fun w2 => .loggingDecorator w2 r.current_state) := by
  cases op <;> rfl

/-- C4: wrapping a resource in any number of logging decorators changes
neither the outcome of start/stop/delete, nor the error raised on failure,
nor the resulting lifecycle state and underlying data, nor what getState
and getDetails report. -/
theorem c4_logging_decorator_transparent (n : Nat) (op : LifecycleOp) (r : CloudResource) :
    (CloudResource.applyOp op (wrapN n r)).map CloudResource.get_state
      = (CloudResource.applyOp op r).map CloudResource.get_state ∧
    (CloudResource.applyOp op (wrapN n r)).isOk = (CloudResource.applyOp op r).isOk ∧
    (CloudResource.applyOp op (wrapN n r)).map CloudResource.dataOf
      = (CloudResource.applyOp op r).map CloudResource.dataOf ∧
    (wrapN n r).get_state = r.get_state ∧
    (wrapN n r).get_details = r.get_details := by
  induction n with
  | zero => exact ⟨rfl, rfl, rfl, rfl, rfl⟩
  | succ n ih =>
      obtain ⟨ih1, ih2, ih3, ih4, ih5⟩ := ih
      refine ⟨?_, ?_, ?_, ?_, ?_⟩
      · rw [wrapN, applyOp_make]
        rcases h : CloudResource.applyOp op (wrapN n r) with e | w <;> rw [h] at ih1 <;>
          simpa [Except.map, CloudResource.get_state] using ih1
      · rw [wrapN, applyOp_make]
        rcases h : CloudResource.applyOp op (wrapN n r) with e | w <;> rw [h] at ih2 <;>
          simpa [Except.map, Except.isOk, Except.toBool] using ih2
      · rw [wrapN, applyOp_make]
        rcases h : CloudResource.applyOp op (wrapN n r) with e | w <;> rw [h] at ih3 <;>
          simpa [Except.map, CloudResource.dataOf] using ih3
      · rw [wrapN]
        show (wrapN n r).get_state = r.get_state
        exact ih4
      · rw [wrapN]
        show (wrapN n r).get_details = r.get_details
        exact ih5

/-- C2 counterexample: a CacheDB config with the eviction-policy key
omitted yields the LRU strategy (the factory defaults the missing key to
`"LRU"`), not the FIFO strategy the claim asserts for omission. -/
theorem c2_counterexample :
    cacheCfgNoEv.eviction_policy = none ∧
    createdEviction (ResourceFactory.create_resource "CacheDB" cacheCfgNoEv)
      = some .LRUStrategy ∧
    EvictionStrategy.LRUStrategy ≠ EvictionStrategy.FIFOStrategy := by
  refine ⟨rfl, by decide, by decide⟩

/-- C2 amended: for a CacheDB creation with the required keys present the
eviction strategy is LRU iff the eviction-policy field equals exactly
`"LRU"` or is omitted (the factory defaults the missing key to `"LRU"`);
any other present value — including the lowercase `"lru"` — yields FIFO. -/
theorem c2_amended_eviction_rule (i nm : String) (ttl cap : Nat) (ev : Option String) :
    createdEviction (ResourceFactory.create_resource "CacheDB"
        ⟨some i, some nm, none, none, none, none, none, some ttl, some cap, ev⟩)
      = some (if ev.getD "LRU" = "LRU" then .LRUStrategy else .FIFOStrategy) ∧
    (createdEviction (ResourceFactory.create_resource "CacheDB"
        ⟨some i, some nm, none, none, none, none, none, some ttl, some cap, ev⟩)
      = some .LRUStrategy ↔ (ev = some "LRU" ∨ ev = none)) := by
  have hmem : ("CacheDB" : String) ∈ defaultRegistry := by decide
  have h1 : ¬ ("CacheDB" : String) = "AppService" := by decide
  have h2 : ¬ ("CacheDB" : String) = "StorageAccount" := by decide
  constructor
  · simp only [ResourceFactory.create_resource, if_pos hmem, if_neg h1, if_neg h2,
      if_pos rfl, eq_self_iff_true, if_true, createdEviction]
  · simp only [ResourceFactory.create_resource, if_pos hmem, if_neg h1, if_neg h2,
      if_pos rfl, eq_self_iff_true, if_true, createdEviction]
    cases ev with
    | none => simp
    | some s =>
        by_cases hs : s = "LRU" <;> simp [Option.getD, hs]

/-- C8: adding a user whose username is already stored returns a boolean
failure and leaves the repository list (hence the first-registered record)
untouched; adding a fresh username succeeds, appends exactly that record,
and a lookup then finds it; the manager's registerUser is exactly this
repository operation. -/
theorem c8_register_duplicate_fails (users : List User) (u : User) :
    ((∃ w ∈ users, w.username = u.username) →
        UserRepository.add_user users u = (false, users)) ∧
    ((∀ w ∈ users, w.username ≠ u.username) →
        UserRepository.add_user users u = (true, users ++ [u]) ∧
        UserRepository.find_by_username (users ++ [u]) u.username = some u) ∧
    (∀ m : ManagerState,
        ManagerState.register_user m u.username u.password u.role
          = ((UserRepository.add_user m.users u).1,
             { m with users := (UserRepository.add_user m.users u).2 })) := by
  refine ⟨?_, ?_, fun m => rfl⟩
  · intro h
    obtain ⟨w, hw, hname⟩ := h
    have hany : users.any (fun v => v.username == u.username) = true := by
      simp only [List.any_eq_true]
      exact ⟨w, hw, by simpa [beq_iff_eq] using hname⟩
    simp [UserRepository.add_user, hany]
  · intro h
    have hany : users.any (fun v => v.username == u.username) = false := by
      simp only [List.any_eq_false]
      intro w hw
      simpa [beq_iff_eq] using h w hw
    constructor
    · simp [UserRepository.add_user, hany]
    · have hnone : users.find? (fun v => v.username == u.username) = none := by
        simp only [List.find?_eq_none]
        intro w hw
        simpa [beq_iff_eq] using h w hw
      simp [UserRepository.find_by_username, List.find?_append, hnone, List.find?]

/-- Witness for C8: registering alice then alice again with another
password fails and leaves the stored record at the first password. -/
theorem c8_register_duplicate_fails_witness :
    UserRepository.add_user [alice] ⟨"alice", "pw2", "user"⟩ = (false, [alice]) ∧
    UserRepository.find_by_username [alice] "alice" = some alice ∧
    UserRepository.add_user [] alice = (true, [alice]) :=
  ⟨(c8_register_duplicate_fails [alice] ⟨"alice", "pw2", "user"⟩).1
      ⟨alice, by simp [alice]⟩,
   by decide,
   by
     have := ((c8_register_duplicate_fails [] alice).2.1 (by simp)).1
     simpa using this⟩

/-- C6 counterexample: with the session authenticated as alice and the
remote-stub provider injected, login for an identity absent from the user
store fails — but the session is clobbered: `current_user` goes from
`some alice` to `none`, so the session after the failed call differs from
the session before it. -/
theorem c6_counterexample :
    (mgrPhantom.login "ghost" "pw").1 = false ∧
    mgrPhantom.current_user = some alice ∧
    (mgrPhantom.login "ghost" "pw").2.current_user = none ∧
    (mgrPhantom.login "ghost" "pw").2.current_user ≠ mgrPhantom.current_user := by
  refine ⟨by decide, rfl, by decide, by decide⟩

/-- C6 amended: a failed login leaves the session unchanged when the
provider rejected the credentials; in the remaining failure case — the
provider authenticated but the user record is absent from the store — the
call fails closed but clears the session (`current_user` becomes `none`),
all other manager fields unchanged. -/
theorem c6_amended_login_failure (m : ManagerState) (u p : String)
    (h : (m.login u p).1 = false) :
    (m.login_service.authenticate m.users u p = false ∧ (m.login u p).2 = m) ∨
    (m.login_service.authenticate m.users u p = true ∧
     UserRepository.find_by_username m.users u = none ∧
     (m.login u p).2 = { m with current_user := none }) := by
  cases ha : m.login_service.authenticate m.users u p with
  | false => exact Or.inl ⟨rfl, by simp [ManagerState.login, ha]⟩
  | true =>
      cases hf : UserRepository.find_by_username m.users u with
      | none => exact Or.inr ⟨rfl, rfl, by simp [ManagerState.login, ha, hf]⟩
      | some w =>
          exfalso
          simp [ManagerState.login, ha, hf] at h

/-- Witness for C6 amended: a wrong password against the file-backed
provider fails with the whole manager state unchanged. -/
theorem c6_amended_login_failure_witness :
    ((ManagerState.init [alice] LoginService.fileLogin).login_service.authenticate
        (ManagerState.init [alice] LoginService.fileLogin).users "alice" "wrong" = false ∧
      ((ManagerState.init [alice] LoginService.fileLogin).login "alice" "wrong").2
        = ManagerState.init [alice] LoginService.fileLogin) ∨
    ((ManagerState.init [alice] LoginService.fileLogin).login_service.authenticate
        (ManagerState.init [alice] LoginService.fileLogin).users "alice" "wrong" = true ∧
      UserRepository.find_by_username
        (ManagerState.init [alice] LoginService.fileLogin).users "alice" = none ∧
      ((ManagerState.init [alice] LoginService.fileLogin).login "alice" "wrong").2
        = { ManagerState.init [alice] LoginService.fileLogin with current_user := none }) :=
  c6_amended_login_failure (ManagerState.init [alice] LoginService.fileLogin)
    "alice" "wrong" (by decide)

/-- C3: while the session is unauthenticated, createResource returns None,
listResources returns the empty dict, start/stop/deleteResource return
False and getResourceDetails returns None, each leaving the manager state
(resource collection, id counter, every stored resource) exactly as it
was; in particular createResource on a freshly constructed manager fails
and its resource collection stays empty. -/
theorem c3_unauthenticated_operations_inert (m : ManagerState)
    (h : m.is_authenticated = false) (t : String) (c : Config) (l : Bool) (i : String) :
    m.create_resource t c l = (.ok none, m) ∧
    m.list_resources = [] ∧
    m.start_resource i = (.ok false, m) ∧
    m.stop_resource i = (.ok false, m) ∧
    m.delete_resource i = (.ok false, m) ∧
    m.get_resource_details i = none ∧
    (∀ (users : List User) (svc : LoginService),
      (ManagerState.init users svc).create_resource t c l
        = (.ok none, ManagerState.init users svc) ∧
      ((ManagerState.init users svc).create_resource t c l).2.resources = []) := by
  refine ⟨?_, ?_, ?_, ?_, ?_, ?_, ?_⟩
  · simp [ManagerState.create_resource, h]
  · simp [ManagerState.list_resources, h]
  · simp [ManagerState.start_resource, h]
  · simp [ManagerState.stop_resource, h]
  · simp [ManagerState.delete_resource, h]
  · simp [ManagerState.get_resource_details, h]
  · intro users svc
    have hinit : (ManagerState.init users svc).is_authenticated = false := rfl
    constructor
    · simp [ManagerState.create_resource, hinit]
    · simp [ManagerState.create_resource, ManagerState.init, ManagerState.is_authenticated,
        Option.isSome]

/-- Witness for C3 on a freshly constructed manager. -/
theorem c3_unauthenticated_operations_inert_witness :
    (ManagerState.init [] LoginService.fileLogin).create_resource "AppService" appCfg false
      = (.ok none, ManagerState.init [] LoginService.fileLogin) ∧
    (ManagerState.init [] LoginService.fileLogin).list_resources = [] ∧
    (ManagerState.init [] LoginService.fileLogin).start_resource "1"
      = (.ok false, ManagerState.init [] LoginService.fileLogin) ∧
    (ManagerState.init [] LoginService.fileLogin).get_resource_details "1" = none ∧
    (ManagerState.init [] LoginService.fileLogin).resources = [] := by
  have h := c3_unauthenticated_operations_inert (ManagerState.init [] LoginService.fileLogin)
    rfl "AppService" appCfg false "1"
  exact ⟨h.1, h.2.1, h.2.2.1, h.2.2.2.2.2.1, rfl⟩

theorem step_resources_of_unauth (m : ManagerState) (h : m.is_authenticated = false)
    (op : MOp) : (m.step op).resources = m.resources := by
  cases op with
  | loginOp u p =>
      cases ha : m.login_service.authenticate m.users u p with
      | false => simp [ManagerState.step, ManagerState.login, ha]
      | true =>
          cases hf : UserRepository.find_by_username m.users u with
          | none => simp [ManagerState.step, ManagerState.login, ha, hf]
          | some w => simp [ManagerState.step, ManagerState.login, ha, hf]
  | logoutOp => rfl
  | registerUserOp u p rl => rfl
  | createResourceOp t c l => simp [ManagerState.step, ManagerState.create_resource, h]
  | listResourcesOp => rfl
  | startResourceOp i => simp [ManagerState.step, ManagerState.start_resource, h]
  | stopResourceOp i => simp [ManagerState.step, ManagerState.stop_resource, h]
  | deleteResourceOp i => simp [ManagerState.step, ManagerState.delete_resource, h]
  | getResourceDetailsOp i => rfl

/-- C5: in every state reachable by a sequence of manager operations with
an unauthenticated session, no public manager operation changes the
resource collection — in particular no stored resource's lifecycle state
changes. -/
theorem c5_unauthenticated_cannot_mutate (m0 : ManagerState) (ops : List MOp) (op : MOp)
    (h : (m0.run ops).is_authenticated = false) :
    ((m0.run ops).step op).resources = (m0.run ops).resources ∧
    ∀ i, dictGet ((m0.run ops).step op).resources i = dictGet (m0.run ops).resources i := by
  have base := step_resources_of_unauth (m0.run ops) h op
  exact ⟨base, fun i => by rw [base]⟩

/-- Witness for C5 on the empty manager and a start attempt. -/
theorem c5_unauthenticated_cannot_mutate_witness :
    (((ManagerState.init [] LoginService.fileLogin).run []).step
        (MOp.startResourceOp "1")).resources
      = ((ManagerState.init [] LoginService.fileLogin).run []).resources :=
  (c5_unauthenticated_cannot_mutate (ManagerState.init [] LoginService.fileLogin) []
    (MOp.startResourceOp "1") rfl).1

theorem delete_resource_success (m : ManagerState) (i : String)
    (h : (m.delete_resource i).1 = .ok true) :
    ∃ r r2, m.is_authenticated = true ∧ m.get_resource i = some r ∧ r.delete = .ok r2 ∧
      (m.delete_resource i).2 = { m with resources := dictSet m.resources i r2 } := by
  cases ha : m.is_authenticated with
  | false => simp [ManagerState.delete_resource, ha] at h
  | true =>
      cases hr : m.get_resource i with
      | none => simp [ManagerState.delete_resource, ha, hr] at h
      | some r =>
          cases hd : r.delete with
          | error e => simp [ManagerState.delete_resource, ha, hr, hd] at h
          | ok r2 =>
              exact ⟨r, r2, rfl, rfl, hd, by simp [ManagerState.delete_resource, ha, hr, hd]⟩

theorem delete_ok_state (r r2 : CloudResource) (h : r.delete = .ok r2) :
    r2.get_state = "DELETED" ∧ r2.dataOf = r.dataOf := by
  rw [show r.delete = CloudResource.applyOp .deleteOp r from rfl, applyOp_eq_setInner] at h
  cases hs : r.stateOf <;> rw [hs] at h
  case CREATED =>
      simp only [LifecycleState.applyOp, LifecycleState.delete, Except.map,
        Except.ok.injEq] at h
      subst h
      exact ⟨get_state_setInner r .DELETED, dataOf_setInner r .DELETED⟩
  case RUNNING => simp [LifecycleState.applyOp, LifecycleState.delete, Except.map] at h
  case STOPPED =>
      simp only [LifecycleState.applyOp, LifecycleState.delete, Except.map,
        Except.ok.injEq] at h
      subst h
      exact ⟨get_state_setInner r .DELETED, dataOf_setInner r .DELETED⟩
  case DELETED => simp [LifecycleState.applyOp, LifecycleState.delete, Except.map] at h

/-- C10: a successful deleteResource keeps the entry in the collection:
the resource stays stored under the same id with state DELETED,
listResources afterwards still includes it, and getResourceDetails still
returns its details. -/
theorem c10_delete_keeps_entry (m : ManagerState) (i : String)
    (h : (m.delete_resource i).1 = .ok true) :
    ∃ r2, ((m.delete_resource i).2).get_resource i = some r2 ∧
      r2.get_state = "DELETED" ∧
      (i, r2) ∈ ((m.delete_resource i).2).list_resources ∧
      ((m.delete_resource i).2).get_resource_details i = some r2.get_details := by
  obtain ⟨r, r2, ha, hr, hd, hm2⟩ := delete_resource_success m i h
  have hget : ((m.delete_resource i).2).get_resource i = some r2 := by
    rw [hm2]
    exact dictGet_dictSet_self m.resources i r2
  have hauth2 : ((m.delete_resource i).2).is_authenticated = true := by
    rw [hm2]
    exact ha
  refine ⟨r2, hget, (delete_ok_state r r2 hd).1, ?_, ?_⟩
  · have hlist : ((m.delete_resource i).2).list_resources
        = ((m.delete_resource i).2).resources := by
      simp [ManagerState.list_resources, hauth2]
    rw [hlist]
    exact dictGet_mem _ i r2 hget
  · simp [ManagerState.get_resource_details, hauth2, hget]

/-- Witness for C10: deleting the CREATED resource stored under "1". -/
theorem c10_delete_keeps_entry_witness :
    (mgrWithRes.delete_resource "1").1 = .ok true ∧
    ∃ r2, ((mgrWithRes.delete_resource "1").2).get_resource "1" = some r2 ∧
      r2.get_state = "DELETED" ∧
      ("1", r2) ∈ ((mgrWithRes.delete_resource "1").2).list_resources ∧
      ((mgrWithRes.delete_resource "1").2).get_resource_details "1"
        = some r2.get_details :=
  ⟨by rfl, c10_delete_keeps_entry mgrWithRes "1" (by rfl)⟩

theorem create_resource_success (m : ManagerState) (t : String) (c : Config) (l : Bool)
    (i : String) (h : (m.create_resource t c l).1 = .ok (some i)) :
    i = Nat.repr m.next_id ∧
    (m.create_resource t c l).2.next_id = m.next_id + 1 ∧
    ∃ res, ResourceFactory.create_resource t { c with id := some (Nat.repr m.next_id) }
        = .ok res ∧
      ((m.create_resource t c l).2).resources
        = dictSet m.resources (Nat.repr m.next_id)
            (if l then LoggingDecorator.make res else res) := by
  cases ha : m.is_authenticated with
  | false => simp [ManagerState.create_resource, ha] at h
  | true =>
      cases hf : ResourceFactory.create_resource t
          { c with id := some (Nat.repr m.next_id) } with
      | error e =>
          have hbad : (m.create_resource t c l).1 = .error e := by
            simp [ManagerState.create_resource, ha, hf]
          rw [hbad] at h
          cases h
      | ok res =>
          have hres1 : (m.create_resource t c l).1 = .ok (some (Nat.repr m.next_id)) := by
            simp [ManagerState.create_resource, ha, hf]
          have hres2 : ((m.create_resource t c l).2).resources
              = dictSet m.resources (Nat.repr m.next_id)
                  (if l then LoggingDecorator.make res else res) := by
            simp [ManagerState.create_resource, ha, hf]
          have hres3 : ((m.create_resource t c l).2).next_id = m.next_id + 1 := by
            simp [ManagerState.create_resource, ha, hf]
          rw [hres1] at h
          simp only [Except.ok.injEq, Option.some.injEq] at h
          subst h
          exact ⟨rfl, hres3, res, rfl, hres2⟩

theorem next_id_le_step (m : ManagerState) (op : MOp) : m.next_id ≤ (m.step op).next_id := by
  cases op with
  | loginOp u p =>
      cases ha : m.login_service.authenticate m.users u p with
      | false => simp [ManagerState.step, ManagerState.login, ha]
      | true =>
          cases hf : UserRepository.find_by_username m.users u with
          | none => simp [ManagerState.step, ManagerState.login, ha, hf]
          | some w => simp [ManagerState.step, ManagerState.login, ha, hf]
  | logoutOp => exact Nat.le_refl _
  | registerUserOp u p rl => exact Nat.le_refl _
  | listResourcesOp => exact Nat.le_refl _
  | getResourceDetailsOp i => exact Nat.le_refl _
  | createResourceOp t c l =>
      cases ha : m.is_authenticated with
      | false => simp [ManagerState.step, ManagerState.create_resource, ha]
      | true =>
          cases hf : ResourceFactory.create_resource t
              { c with id := some (Nat.repr m.next_id) } with
          | error e => simp [ManagerState.step, ManagerState.create_resource, ha, hf]
          | ok res =>
              simp [ManagerState.step, ManagerState.create_resource, ha, hf]
  | startResourceOp i =>
      cases ha : m.is_authenticated with
      | false => simp [ManagerState.step, ManagerState.start_resource, ha]
      | true =>
          cases hr : m.get_resource i with
          | none => simp [ManagerState.step, ManagerState.start_resource, ha, hr]
          | some r =>
              cases hs : r.start with
              | error e => simp [ManagerState.step, ManagerState.start_resource, ha, hr, hs]
              | ok r2 => simp [ManagerState.step, ManagerState.start_resource, ha, hr, hs]
  | stopResourceOp i =>
      cases ha : m.is_authenticated with
      | false => simp [ManagerState.step, ManagerState.stop_resource, ha]
      | true =>
          cases hr : m.get_resource i with
          | none => simp [ManagerState.step, ManagerState.stop_resource, ha, hr]
          | some r =>
              cases hs : r.stop with
              | error e => simp [ManagerState.step, ManagerState.stop_resource, ha, hr, hs]
              | ok r2 => simp [ManagerState.step, ManagerState.stop_resource, ha, hr, hs]
  | deleteResourceOp i =>
      cases ha : m.is_authenticated with
      | false => simp [ManagerState.step, ManagerState.delete_resource, ha]
      | true =>
          cases hr : m.get_resource i with
          | none => simp [ManagerState.step, ManagerState.delete_resource, ha, hr]
          | some r =>
              cases hs : r.delete with
              | error e => simp [ManagerState.step, ManagerState.delete_resource, ha, hr, hs]
              | ok r2 => simp [ManagerState.step, ManagerState.delete_resource, ha, hr, hs]

theorem next_id_le_run (ops : List MOp) : ∀ m : ManagerState,
    m.next_id ≤ (m.run ops).next_id := by
  induction ops with
  | nil => intro m; exact Nat.le_refl _
  | cons op rest ih =>
      intro m
      exact Nat.le_trans (next_id_le_step m op) (ih (m.step op))

theorem idsBounded_init (users : List User) (svc : LoginService) :
    IdsBounded (ManagerState.init users svc) := by
  intro p hp
  simp [ManagerState.init] at hp

theorem idsBounded_of_eq (m m2 : ManagerState) (hm : IdsBounded m)
    (hres : m2.resources = m.resources) (hnext : m.next_id ≤ m2.next_id) :
    IdsBounded m2 := by
  intro p hp
  rw [hres] at hp
  obtain ⟨k, hk, he⟩ := hm p hp
  exact ⟨k, Nat.lt_of_lt_of_le hk hnext, he⟩

theorem idsBounded_dictSet_existing (m : ManagerState) (hm : IdsBounded m) (i : String)
    (r2 : CloudResource) (hkey : dictGet m.resources i ≠ none) :
    IdsBounded { m with resources := dictSet m.resources i r2 } := by
  intro q hq
  rcases mem_dictSet _ _ _ _ hq with h1 | h1
  · cases hg : dictGet m.resources i with
    | none => exact absurd hg hkey
    | some r0 =>
        obtain ⟨k, hk, he⟩ := hm (i, r0) (dictGet_mem _ _ _ hg)
        exact ⟨k, hk, by rw [h1]; exact he⟩
  · exact hm q h1

theorem idsBounded_step (m : ManagerState) (hm : IdsBounded m) (op : MOp) :
    IdsBounded (m.step op) := by
  cases op with
  | loginOp u p =>
      cases ha : m.login_service.authenticate m.users u p with
      | false =>
          refine idsBounded_of_eq m _ hm ?_ ?_ <;>
            simp [ManagerState.step, ManagerState.login, ha]
      | true =>
          cases hf : UserRepository.find_by_username m.users u with
          | none =>
              refine idsBounded_of_eq m _ hm ?_ ?_ <;>
                simp [ManagerState.step, ManagerState.login, ha, hf]
          | some w =>
              refine idsBounded_of_eq m _ hm ?_ ?_ <;>
                simp [ManagerState.step, ManagerState.login, ha, hf]
  | logoutOp => exact idsBounded_of_eq m _ hm rfl (Nat.le_refl _)
  | registerUserOp u p rl => exact idsBounded_of_eq m _ hm rfl (Nat.le_refl _)
  | listResourcesOp => exact hm
  | getResourceDetailsOp i => exact hm
  | createResourceOp t c l =>
      cases ha : m.is_authenticated with
      | false =>
          refine idsBounded_of_eq m _ hm ?_ ?_ <;>
            simp [ManagerState.step, ManagerState.create_resource, ha]
      | true =>
          cases hf : ResourceFactory.create_resource t
              { c with id := some (Nat.repr m.next_id) } with
          | error e =>
              refine idsBounded_of_eq m _ hm ?_ ?_ <;>
                simp [ManagerState.step, ManagerState.create_resource, ha, hf]
          | ok res =>
              have hstep1 : (m.step (.createResourceOp t c l)).resources
                  = dictSet m.resources (Nat.repr m.next_id)
                      (if l then LoggingDecorator.make res else res) := by
                simp [ManagerState.step, ManagerState.create_resource, ha, hf]
              have hstep2 : (m.step (.createResourceOp t c l)).next_id = m.next_id + 1 := by
                simp [ManagerState.step, ManagerState.create_resource, ha, hf]
              intro q hq
              rw [hstep1] at hq
              rw [hstep2]
              rcases mem_dictSet _ _ _ _ hq with h1 | h1
              · exact ⟨m.next_id, by omega, by rw [h1]⟩
              · obtain ⟨k, hk, he⟩ := hm q h1
                exact ⟨k, by omega, he⟩
  | startResourceOp i =>
      cases ha : m.is_authenticated with
      | false =>
          refine idsBounded_of_eq m _ hm ?_ ?_ <;>
            simp [ManagerState.step, ManagerState.start_resource, ha]
      | true =>
          cases hr : m.get_resource i with
          | none =>
              refine idsBounded_of_eq m _ hm ?_ ?_ <;>
                simp [ManagerState.step, ManagerState.start_resource, ha, hr]
          | some r =>
              cases hs : r.start with
              | error e =>
                  refine idsBounded_of_eq m _ hm ?_ ?_ <;>
                    simp [ManagerState.step, ManagerState.start_resource, ha, hr, hs]
              | ok r2 =>
                  have hstep : m.step (.startResourceOp i)
                      = { m with resources := dictSet m.resources i r2 } := by
                    simp [ManagerState.step, ManagerState.start_resource, ha, hr, hs]
                  rw [hstep]
                  exact idsBounded_dictSet_existing m hm i r2
                    (by simp [show dictGet m.resources i = m.get_resource i from rfl, hr])
  | stopResourceOp i =>
      cases ha : m.is_authenticated with
      | false =>
          refine idsBounded_of_eq m _ hm ?_ ?_ <;>
            simp [ManagerState.step, ManagerState.stop_resource, ha]
      | true =>
          cases hr : m.get_resource i with
          | none =>
              refine idsBounded_of_eq m _ hm ?_ ?_ <;>
                simp [ManagerState.step, ManagerState.stop_resource, ha, hr]
          | some r =>
              cases hs : r.stop with
              | error e =>
                  refine idsBounded_of_eq m _ hm ?_ ?_ <;>
                    simp [ManagerState.step, ManagerState.stop_resource, ha, hr, hs]
              | ok r2 =>
                  have hstep : m.step (.stopResourceOp i)
                      = { m with resources := dictSet m.resources i r2 } := by
                    simp [ManagerState.step, ManagerState.stop_resource, ha, hr, hs]
                  rw [hstep]
                  exact idsBounded_dictSet_existing m hm i r2
                    (by simp [show dictGet m.resources i = m.get_resource i from rfl, hr])
  | deleteResourceOp i =>
      cases ha : m.is_authenticated with
      | false =>
          refine idsBounded_of_eq m _ hm ?_ ?_ <;>
            simp [ManagerState.step, ManagerState.delete_resource, ha]
      | true =>
          cases hr : m.get_resource i with
          | none =>
              refine idsBounded_of_eq m _ hm ?_ ?_ <;>
                simp [ManagerState.step, ManagerState.delete_resource, ha, hr]
          | some r =>
              cases hs : r.delete with
              | error e =>
                  refine idsBounded_of_eq m _ hm ?_ ?_ <;>
                    simp [ManagerState.step, ManagerState.delete_resource, ha, hr, hs]
              | ok r2 =>
                  have hstep : m.step (.deleteResourceOp i)
                      = { m with resources := dictSet m.resources i r2 } := by
                    simp [ManagerState.step, ManagerState.delete_resource, ha, hr, hs]
                  rw [hstep]
                  exact idsBounded_dictSet_existing m hm i r2
                    (by simp [show dictGet m.resources i = m.get_resource i from rfl, hr])

theorem idsBounded_run (ops : List MOp) : ∀ m : ManagerState, IdsBounded m →
    IdsBounded (m.run ops) := by
  induction ops with
  | nil => intro m hm; exact hm
  | cons op rest ih => intro m hm; exact ih (m.step op) (idsBounded_step m hm op)

theorem fresh_id_not_stored (m : ManagerState) (hm : IdsBounded m) :
    dictGet m.resources (Nat.repr m.next_id) = none := by
  cases hg : dictGet m.resources (Nat.repr m.next_id) with
  | none => rfl
  | some r =>
      obtain ⟨k, hk, he⟩ := hm _ (dictGet_mem _ _ _ hg)
      have := natRepr_injective _ _ he
      omega

theorem applyOp_ok_dataOf (op : LifecycleOp) (r r2 : CloudResource)
    (h : CloudResource.applyOp op r = .ok r2) : r2.dataOf = r.dataOf := by
  rw [applyOp_eq_setInner] at h
  cases hs : LifecycleState.applyOp op r.stateOf with
  | error e => rw [hs] at h; simp [Except.map] at h
  | ok s2 =>
      rw [hs] at h
      simp only [Except.map, Except.ok.injEq] at h
      rw [← h]
      exact dataOf_setInner r s2

theorem step_preserves_entry (m : ManagerState) (hm : IdsBounded m) (op : MOp)
    (i : String) (r : CloudResource) (h : dictGet m.resources i = some r) :
    ∃ r2, dictGet (m.step op).resources i = some r2 ∧ r2.dataOf = r.dataOf := by
  cases op with
  | loginOp u p =>
      refine ⟨r, ?_, rfl⟩
      have : ((m.login u p).2).resources = m.resources := by
        cases ha : m.login_service.authenticate m.users u p with
        | false => simp [ManagerState.login, ha]
        | true =>
            cases hf : UserRepository.find_by_username m.users u with
            | none => simp [ManagerState.login, ha, hf]
            | some w => simp [ManagerState.login, ha, hf]
      rw [show (m.step (.loginOp u p)).resources = ((m.login u p).2).resources from rfl, this]
      exact h
  | logoutOp => exact ⟨r, h, rfl⟩
  | registerUserOp u p rl => exact ⟨r, h, rfl⟩
  | listResourcesOp => exact ⟨r, h, rfl⟩
  | getResourceDetailsOp i2 => exact ⟨r, h, rfl⟩
  | createResourceOp t c l =>
      cases ha : m.is_authenticated with
      | false =>
          refine ⟨r, ?_, rfl⟩
          have : (m.step (.createResourceOp t c l)).resources = m.resources := by
            simp [ManagerState.step, ManagerState.create_resource, ha]
          rw [this]
          exact h
      | true =>
          cases hf : ResourceFactory.create_resource t
              { c with id := some (Nat.repr m.next_id) } with
          | error e =>
              refine ⟨r, ?_, rfl⟩
              have : (m.step (.createResourceOp t c l)).resources = m.resources := by
                simp [ManagerState.step, ManagerState.create_resource, ha, hf]
              rw [this]
              exact h
          | ok res =>
              have hstep1 : (m.step (.createResourceOp t c l)).resources
                  = dictSet m.resources (Nat.repr m.next_id)
                      (if l then LoggingDecorator.make res else res) := by
                simp [ManagerState.step, ManagerState.create_resource, ha, hf]
              have hne : i ≠ Nat.repr m.next_id := by
                intro he
                rw [he, fresh_id_not_stored m hm] at h
                cases h
              refine ⟨r, ?_, rfl⟩
              rw [hstep1, dictGet_dictSet_of_ne _ _ _ _ hne]
              exact h
  | startResourceOp i2 =>
      cases ha : m.is_authenticated with
      | false =>
          refine ⟨r, ?_, rfl⟩
          have : (m.step (.startResourceOp i2)).resources = m.resources := by
            simp [ManagerState.step, ManagerState.start_resource, ha]
          rw [this]
          exact h
      | true =>
          cases hr0 : m.get_resource i2 with
          | none =>
              refine ⟨r, ?_, rfl⟩
              have : (m.step (.startResourceOp i2)).resources = m.resources := by
                simp [ManagerState.step, ManagerState.start_resource, ha, hr0]
              rw [this]
              exact h
          | some r0 =>
              cases hs : r0.start with
              | error e =>
                  refine ⟨r, ?_, rfl⟩
                  have : (m.step (.startResourceOp i2)).resources = m.resources := by
                    simp [ManagerState.step, ManagerState.start_resource, ha, hr0, hs]
                  rw [this]
                  exact h
              | ok r2 =>
                  have hstep1 : (m.step (.startResourceOp i2)).resources
                      = dictSet m.resources i2 r2 := by
                    simp [ManagerState.step, ManagerState.start_resource, ha, hr0, hs]
                  by_cases hii : i = i2
                  · subst hii
                    have hrr : r0 = r := by
                      rw [show m.get_resource i = dictGet m.resources i from rfl, h] at hr0
                      exact (Option.some.inj hr0).symm
                    subst hrr
                    refine ⟨r2, ?_, applyOp_ok_dataOf .startOp r0 r2 hs⟩
                    rw [hstep1]
                    exact dictGet_dictSet_self _ _ _
                  · refine ⟨r, ?_, rfl⟩
                    rw [hstep1, dictGet_dictSet_of_ne _ _ _ _ hii]
                    exact h
  | stopResourceOp i2 =>
      cases ha : m.is_authenticated with
      | false =>
          refine ⟨r, ?_, rfl⟩
          have : (m.step (.stopResourceOp i2)).resources = m.resources := by
            simp [ManagerState.step, ManagerState.stop_resource, ha]
          rw [this]
          exact h
      | true =>
          cases hr0 : m.get_resource i2 with
          | none =>
              refine ⟨r, ?_, rfl⟩
              have : (m.step (.stopResourceOp i2)).resources = m.resources := by
                simp [ManagerState.step, ManagerState.stop_resource, ha, hr0]
              rw [this]
              exact h
          | some r0 =>
              cases hs : r0.stop with
              | error e =>
                  refine ⟨r, ?_, rfl⟩
                  have : (m.step (.stopResourceOp i2)).resources = m.resources := by
                    simp [ManagerState.step, ManagerState.stop_resource, ha, hr0, hs]
                  rw [this]
                  exact h
              | ok r2 =>
                  have hstep1 : (m.step (.stopResourceOp i2)).resources
                      = dictSet m.resources i2 r2 := by
                    simp [ManagerState.step, ManagerState.stop_resource, ha, hr0, hs]
                  by_cases hii : i = i2
                  · subst hii
                    have hrr : r0 = r := by
                      rw [show m.get_resource i = dictGet m.resources i from rfl, h] at hr0
                      exact (Option.some.inj hr0).symm
                    subst hrr
                    refine ⟨r2, ?_, applyOp_ok_dataOf .stopOp r0 r2 hs⟩
                    rw [hstep1]
                    exact dictGet_dictSet_self _ _ _
                  · refine ⟨r, ?_, rfl⟩
                    rw [hstep1, dictGet_dictSet_of_ne _ _ _ _ hii]
                    exact h
  | deleteResourceOp i2 =>
      cases ha : m.is_authenticated with
      | false =>
          refine ⟨r, ?_, rfl⟩
          have : (m.step (.deleteResourceOp i2)).resources = m.resources := by
            simp [ManagerState.step, ManagerState.delete_resource, ha]
          rw [this]
          exact h
      | true =>
          cases hr0 : m.get_resource i2 with
          | none =>
              refine ⟨r, ?_, rfl⟩
              have : (m.step (.deleteResourceOp i2)).resources = m.resources := by
                simp [ManagerState.step, ManagerState.delete_resource, ha, hr0]
              rw [this]
              exact h
          | some r0 =>
              cases hs : r0.delete with
              | error e =>
                  refine ⟨r, ?_, rfl⟩
                  have : (m.step (.deleteResourceOp i2)).resources = m.resources := by
                    simp [ManagerState.step, ManagerState.delete_resource, ha, hr0, hs]
                  rw [this]
                  exact h
              | ok r2 =>
                  have hstep1 : (m.step (.deleteResourceOp i2)).resources
                      = dictSet m.resources i2 r2 := by
                    simp [ManagerState.step, ManagerState.delete_resource, ha, hr0, hs]
                  by_cases hii : i = i2
                  · subst hii
                    have hrr : r0 = r := by
                      rw [show m.get_resource i = dictGet m.resources i from rfl, h] at hr0
                      exact (Option.some.inj hr0).symm
                    subst hrr
                    refine ⟨r2, ?_, applyOp_ok_dataOf .deleteOp r0 r2 hs⟩
                    rw [hstep1]
                    exact dictGet_dictSet_self _ _ _
                  · refine ⟨r, ?_, rfl⟩
                    rw [hstep1, dictGet_dictSet_of_ne _ _ _ _ hii]
                    exact h

theorem run_preserves_entry (ops : List MOp) : ∀ (m : ManagerState), IdsBounded m →
    ∀ (i : String) (r : CloudResource), dictGet m.resources i = some r →
    ∃ r2, dictGet (m.run ops).resources i = some r2 ∧ r2.dataOf = r.dataOf := by
  induction ops with
  | nil => intro m hm i r h; exact ⟨r, h, rfl⟩
  | cons op rest ih =>
      intro m hm i r h
      obtain ⟨r1, h1, hd1⟩ := step_preserves_entry m hm op i r h
      obtain ⟨r2, h2, hd2⟩ := ih (m.step op) (idsBounded_step m hm op) i r1 h1
      exact ⟨r2, h2, hd2.trans hd1⟩

/-- C9: in every reachable manager state, a successful createResource
returns the decimal rendering of the current id counter, stores the new
resource under exactly that id and bumps the counter; the id about to be
assigned is never already present; the counter never decreases under any
operation (including failed create attempts), so distinct successful
creates return distinct ids; and an entry once stored under an id stays
stored under that id with the same immutable resource data forever. -/
theorem c9_ids_sequential_unique_never_reused (users : List User) (svc : LoginService)
    (ops : List MOp) (m : ManagerState)
    (hm : m = (ManagerState.init users svc).run ops) :
    (∀ (t : String) (c : Config) (l : Bool) (i : String),
        (m.create_resource t c l).1 = .ok (some i) →
        i = Nat.repr m.next_id ∧
        (m.create_resource t c l).2.next_id = m.next_id + 1 ∧
        ∃ res, ResourceFactory.create_resource t
            { c with id := some (Nat.repr m.next_id) } = .ok res ∧
          dictGet ((m.create_resource t c l).2).resources i
            = some (if l then LoggingDecorator.make res else res)) ∧
    m.get_resource (Nat.repr m.next_id) = none ∧
    (∀ op : MOp, m.next_id ≤ (m.step op).next_id) ∧
    (∀ (t : String) (c : Config) (l : Bool) (i : String) (ops2 : List MOp)
        (t2 : String) (c2 : Config) (l2 : Bool) (i2 : String),
        (m.create_resource t c l).1 = .ok (some i) →
        ((((m.create_resource t c l).2).run ops2).create_resource t2 c2 l2).1
          = .ok (some i2) →
        i ≠ i2) ∧
    (∀ (i : String) (r : CloudResource) (ops2 : List MOp),
        m.get_resource i = some r →
        ∃ r2, (m.run ops2).get_resource i = some r2 ∧ r2.dataOf = r.dataOf) := by
  have hInv : IdsBounded m := by
    rw [hm]
    exact idsBounded_run ops _ (idsBounded_init users svc)
  refine ⟨?_, ?_, ?_, ?_, ?_⟩
  · intro t c l i h
    obtain ⟨h1, h2, res, h3, h4⟩ := create_resource_success m t c l i h
    subst h1
    exact ⟨rfl, h2, res, h3, by rw [h4]; exact dictGet_dictSet_self _ _ _⟩
  · exact fresh_id_not_stored m hInv
  · exact next_id_le_step m
  · intro t c l i ops2 t2 c2 l2 i2 h hsnd
    obtain ⟨h1, h2, _⟩ := create_resource_success m t c l i h
    obtain ⟨h1b, _, _⟩ := create_resource_success _ t2 c2 l2 i2 hsnd
    intro heq
    rw [h1, h1b] at heq
    have hinj := natRepr_injective _ _ heq
    have hle : (m.create_resource t c l).2.next_id
        ≤ ((m.create_resource t c l).2.run ops2).next_id := next_id_le_run ops2 _
    omega
  · intro i r ops2 h
    exact run_preserves_entry ops2 m hInv i r h

/-- Witness for C9: after logging in, the first create returns "1", the
counter moves from 1 to 2, a second create returns the distinct id "2",
and the stored entry survives a later start with its data intact. -/
theorem c9_ids_sequential_unique_never_reused_witness :
    (mgrLogged.create_resource "AppService" appCfg false).1 = .ok (some "1") ∧
    "1" = Nat.repr mgrLogged.next_id ∧
    (mgrLogged.create_resource "AppService" appCfg false).2.next_id
      = mgrLogged.next_id + 1 ∧
    mgrLogged.get_resource (Nat.repr mgrLogged.next_id) = none ∧
    ("1" : String) ≠ "2" ∧
    ∃ r2, (mgrLogged2.run [MOp.startResourceOp "1"]).get_resource "1" = some r2 ∧
      r2.dataOf = (CloudResource.base
        (.appService "1" "Web" "Python" "us-east-1" 3) .CREATED).dataOf := by
  have T := c9_ids_sequential_unique_never_reused [alice] LoginService.fileLogin
    [MOp.loginOp "alice" "pw1"] mgrLogged rfl
  have T2 := c9_ids_sequential_unique_never_reused [alice] LoginService.fileLogin
    [MOp.loginOp "alice" "pw1", MOp.createResourceOp "AppService" appCfg false]
    mgrLogged2 rfl
  have hc : (mgrLogged.create_resource "AppService" appCfg false).1 = .ok (some "1") := by
    rfl
  obtain ⟨ha1, ha2, _⟩ := T.1 "AppService" appCfg false "1" hc
  refine ⟨hc, ha1, ha2, T.2.1, ?_, ?_⟩
  · exact T.2.2.2.1 "AppService" appCfg false "1" [] "AppService" appCfg false "2"
      hc (by rfl)
  · exact T2.2.2.2.2 "1"
      (CloudResource.base (.appService "1" "Web" "Python" "us-east-1" 3) .CREATED)
      [MOp.startResourceOp "1"] (by rfl)

end CloudMgr
